import Mathlib

/-!
Verification development for the floop interpreter (src/floop.py).

The interpreter evaluates tuples produced by the Sema transformer with the
function runinstr(tup, decls, cells, params); run(instrs, ...) folds runinstr
over a list.  Non-local control flow uses two Python exception classes, Abort
(raised by ABORT LOOP n) and Break (raised by QUIT BLOCK n).  Cells and decls
are Python dicts mutated in place; params is a dict that is only ever read.

Shallow embedding choices, each mirroring a line of the source:
- Value models the Python runtime values that occur during evaluation:
  int, bool, the Cell class (a transient lvalue holder), and None (the
  return value of statement forms, line 165 of the source).
- Python bool is a subtype of int, so arithmetic and comparisons coerce
  True to 1 and False to 0 (toI below); == never raises and compares
  across int/bool numerically; two distinct Cell objects compare unequal
  by identity.  Adding or comparing None or a Cell raises TypeError.
- Exceptions are modelled by the Outcome type threaded through evaluation
  (ok / abortSig / breakSig / err); dict mutation is modelled by explicit
  state passing of the cell store and the declaration registry.
- Evaluation is made total with a fuel parameter; running out of fuel is
  the distinguished outcome err .fuel, which corresponds to no behaviour
  of the Python code (the mu-loop can genuinely diverge).
-/

/-- Python runtime values occurring during floop evaluation. -/
inductive Value where
  | int (n : Int)
  | bool (b : Bool)
  | cellref (i : Int)
  | none
deriving DecidableEq, Repr

/-- Fatal Python-level failures of the interpreter.  keyErrorCell i models
the KeyError raised by cells[i], keyErrorParam by params[name], keyErrorProc
by decls[procname]; typeError models a TypeError from an operator applied to
an unsupported operand or from unpacking None; assertError a failed assert;
attrError the AttributeError raised by a.str() in the call handler (Abort
and Break have no str method); unpackError the ValueError from unpacking a
tuple of the wrong length; fuel is the artificial out-of-fuel marker. -/
inductive Err where
  | keyErrorCell (i : Int)
  | keyErrorParam (s : String)
  | keyErrorProc (s : String)
  | typeError
  | assertError
  | attrError
  | unpackError
  | fuel
deriving DecidableEq, Repr

/-- Result of one evaluation step: a returned value, a propagating Abort
exception, a propagating Break exception, or a fatal error. -/
inductive Outcome where
  | ok (v : Value)
  | abortSig (n : Int)
  | breakSig (n : Int)
  | err (e : Err)
deriving DecidableEq, Repr

/-- The tagged tuples produced by the Sema transformer, one constructor per
tuple shape consumed by runinstr.  loop with bound none is the mu-loop
(Sema.muloop produces ("loop", None, block)). -/
inductive Instr where
  | bool (b : Bool)
  | num (n : Int)
  | abort (n : Int)
  | quit (n : Int)
  | cond (test : Instr) (body : Instr)
  | eq (a b : Instr)
  | lt (a b : Instr)
  | gt (a b : Instr)
  | plus (a b : Instr)
  | times (a b : Instr)
  | cell (i : Int)
  | cellfetch (i : Int)
  | paramfetch (s : String)
  | assign (lhs rhs : Instr)
  | loop (bound : Option Instr) (body : Instr)
  | block (n : Int) (stmts : List Instr)
  | decl (name : String) (ps : List String) (body : Instr)
  | call (name : String) (args : List Instr)

abbrev Cells := Int → Option Value
abbrev Params := String → Option Value
abbrev Decls := String → Option (List String × Instr)

def emptyCells : Cells := fun _ => Option.none
def emptyParams : Params := fun _ => Option.none
def emptyDecls : Decls := fun _ => Option.none

/-- cells[left.index] = v (dict item assignment). -/
def setCell (c : Cells) (i : Int) (v : Value) : Cells :=
  fun k => if k = i then some v else c k

/-- Coercion used implicitly by Python arithmetic and comparisons: bool is
an int subtype with True = 1 and False = 0; Cell objects and None do not
coerce. -/
def toI : Value → Option Int
  | .int n => some n
  | .bool b => some (if b then 1 else 0)
  | _ => Option.none

/-- Python ==, which never raises: int and bool compare numerically,
None equals only None, and two Cell operands are distinct freshly
constructed objects, so default object identity makes them unequal. -/
def pyEq (a b : Value) : Bool :=
  match toI a, toI b with
  | some x, some y => x = y
  | _, _ =>
    match a, b with
    | .none, .none => true
    | _, _ => false

/-- Python a + b on the values above: defined on int/bool via coercion
(the result is an int, even for True + True), TypeError otherwise. -/
def pyAdd (a b : Value) : Except Err Value :=
  match toI a, toI b with
  | some x, some y => .ok (.int (x + y))
  | _, _ => .error .typeError

/-- Python a * b, same domain as pyAdd. -/
def pyMul (a b : Value) : Except Err Value :=
  match toI a, toI b with
  | some x, some y => .ok (.int (x * y))
  | _, _ => .error .typeError

/-- Python a < b: ordering is defined on int/bool via coercion, TypeError
otherwise. -/
def pyLt (a b : Value) : Except Err Value :=
  match toI a, toI b with
  | some x, some y => .ok (.bool (decide (x < y)))
  | _, _ => .error .typeError

/-- Python a > b, same domain as pyLt. -/
def pyGt (a b : Value) : Except Err Value :=
  match toI a, toI b with
  | some x, some y => .ok (.bool (decide (x > y)))
  | _, _ => .error .typeError

/-- Python truthiness, as used by the conditional: nonzero ints and True
are truthy, objects are truthy, None is falsy. -/
def pyTruthy : Value → Bool
  | .int n => n ≠ 0
  | .bool b => b
  | .cellref _ => true
  | .none => false

/-- Python range(v) as used by the bounded loop: v must be int-like (bool
coerces, range(True) has one element), a negative bound yields an empty
range, anything else raises TypeError. -/
def rangeLen (v : Value) : Except Err Nat :=
  match toI v with
  | some n => .ok n.toNat
  | Option.none => .error .typeError

/-- Models the two lines in the loop handlers
  _, blocknum, _ = args[1]  followed by  a.blocknum == blocknum.
The body of every loop built by Sema is a 3-tuple ("block", n, stmts), so
unpacking extracts the int n and the comparison is k == n.  On any other
3-field tuple the unpacked middle element is not an int, so the comparison
is False and the Abort is re-raised; on a tuple of a different length the
unpacking itself raises ValueError. -/
def abortMatch (k : Int) (body : Instr) : Except Err Bool :=
  match body with
  | .block n _ => .ok (decide (k = n))
  | .cond _ _ => .ok false
  | .eq _ _ => .ok false
  | .lt _ _ => .ok false
  | .gt _ _ => .ok false
  | .plus _ _ => .ok false
  | .times _ _ => .ok false
  | .assign _ _ => .ok false
  | .loop _ _ => .ok false
  | .call _ _ => .ok false
  | _ => .error .unpackError

/-- Models procname.endswith of the predicate marker: the name's last
character is the question mark. -/
def isTestName (name : String) : Bool :=
  name.data.getLast? = some '?'

/-- The fresh cell store allocated by the call handler:
  default_output = False if procname.endswith of the marker else 0
  cells = the singleton dict mapping -1 to default_output. -/
def freshStore (name : String) : Cells :=
  fun k =>
    if k = -1 then some (if isTestName name then Value.bool false else Value.int 0)
    else Option.none

/-- Models funcargs = dict(zip(funcparams, funcargs)): pairs are formed up
to the shorter of the two lists, and a later pair for the same name
overwrites an earlier one, as Python dict construction does. -/
def zipBind : List String → List Value → Params
  | p :: ps, v :: vs =>
    fun q =>
      match zipBind ps vs q with
      | some w => some w
      | Option.none => if q = p then some v else Option.none
  | _, _ => fun _ => Option.none

/-- The five recursion sites of the interpreter, so that the whole
evaluator is a single function structurally recursive on fuel:
instr is runinstr(tup, ...); runL is run(instrs, ...); argsL is the
for-loop accumulating funcargs in the call handler; iter is the
for i in range(bound) loop; mu is the while True loop of the mu-loop. -/
inductive EvalTask where
  | instr (i : Instr)
  | runL (l : List Instr)
  | argsL (l : List Instr)
  | iter (body : Instr) (n : Nat)
  | mu (body : Instr)

/-- One-step-faithful embedding of runinstr / run from src/floop.py.
The result is (outcome, values, cells, decls): values is only meaningful
for argsL tasks (the accumulated funcargs list, empty elsewhere); cells
and decls are the in-place mutated dicts as seen by the caller after the
call returns or the exception propagates.  params is never mutated by the
source, so it is passed as a plain read-only argument. -/
def exec : Nat → EvalTask → Decls → Cells → Params →
    Outcome × List Value × Cells × Decls
  | 0, _, d, c, _ => (.err .fuel, [], c, d)
  | fuel+1, t, d, c, p =>
    match t with
    | .instr i =>
      match i with
      | .bool b => (.ok (.bool b), [], c, d)
      | .num n => (.ok (.int n), [], c, d)
      | .abort n => (.abortSig n, [], c, d)
      | .quit n => (.breakSig n, [], c, d)
      | .cell i => (.ok (.cellref i), [], c, d)
      | .cellfetch i =>
        match c i with
        | some v => (.ok v, [], c, d)
        | Option.none => (.err (.keyErrorCell i), [], c, d)
      | .paramfetch s =>
        match p s with
        | some v => (.ok v, [], c, d)
        | Option.none => (.err (.keyErrorParam s), [], c, d)
      | .cond test body =>
        match exec fuel (.instr test) d c p with
        | (.ok v, _, c1, d1) =>
          if pyTruthy v then
            match exec fuel (.instr body) d1 c1 p with
            | (.ok _, _, c2, d2) => (.ok .none, [], c2, d2)
            | r => r
          else (.ok .none, [], c1, d1)
        | r => r
      | .eq a b =>
        match exec fuel (.instr a) d c p with
        | (.ok va, _, c1, d1) =>
          match exec fuel (.instr b) d1 c1 p with
          | (.ok vb, _, c2, d2) => (.ok (.bool (pyEq va vb)), [], c2, d2)
          | r => r
        | r => r
      | .lt a b =>
        match exec fuel (.instr a) d c p with
        | (.ok va, _, c1, d1) =>
          match exec fuel (.instr b) d1 c1 p with
          | (.ok vb, _, c2, d2) =>
            match pyLt va vb with
            | .ok v => (.ok v, [], c2, d2)
            | .error e => (.err e, [], c2, d2)
          | r => r
        | r => r
      | .gt a b =>
        match exec fuel (.instr a) d c p with
        | (.ok va, _, c1, d1) =>
          match exec fuel (.instr b) d1 c1 p with
          | (.ok vb, _, c2, d2) =>
            match pyGt va vb with
            | .ok v => (.ok v, [], c2, d2)
            | .error e => (.err e, [], c2, d2)
          | r => r
        | r => r
      | .plus a b =>
        match exec fuel (.instr a) d c p with
        | (.ok va, _, c1, d1) =>
          match exec fuel (.instr b) d1 c1 p with
          | (.ok vb, _, c2, d2) =>
            match pyAdd va vb with
            | .ok v => (.ok v, [], c2, d2)
            | .error e => (.err e, [], c2, d2)
          | r => r
        | r => r
      | .times a b =>
        match exec fuel (.instr a) d c p with
        | (.ok va, _, c1, d1) =>
          match exec fuel (.instr b) d1 c1 p with
          | (.ok vb, _, c2, d2) =>
            match pyMul va vb with
            | .ok v => (.ok v, [], c2, d2)
            | .error e => (.err e, [], c2, d2)
          | r => r
        | r => r
      | .assign lhs rhs =>
        match exec fuel (.instr lhs) d c p with
        | (.ok lv, _, c1, d1) =>
          match lv with
          | .cellref i =>
            match exec fuel (.instr rhs) d1 c1 p with
            | (.ok v, _, c2, d2) => (.ok .none, [], setCell c2 i v, d2)
            | r => r
          | _ => (.err .assertError, [], c1, d1)
        | r => r
      | .loop bound body =>
        match bound with
        | Option.none =>
          match exec fuel (.mu body) d c p with
          | (.ok _, _, c1, d1) =>
            -- After break exits the while True loop, control falls
            -- through to bound = runinstr(args[0], ...) with args[0]
            -- still None, and unpacking None raises TypeError.
            (.err .typeError, [], c1, d1)
          | r => r
        | some be =>
          match exec fuel (.instr be) d c p with
          | (.ok v, _, c1, d1) =>
            match rangeLen v with
            | .ok n => exec fuel (.iter body n) d1 c1 p
            | .error e => (.err e, [], c1, d1)
          | r => r
      | .block n stmts =>
        match exec fuel (.runL stmts) d c p with
        | (.breakSig m, _, c1, d1) =>
          if m ≠ n then (.breakSig m, [], c1, d1) else (.ok .none, [], c1, d1)
        | (.ok _, _, c1, d1) => (.ok .none, [], c1, d1)
        | r => r
      | .decl name ps body =>
        (.ok .none, [], c, fun q => if q = name then some (ps, body) else d q)
      | .call name args =>
        match exec fuel (.argsL args) d c p with
        | (.ok _, vs, c1, d1) =>
          match d1 name with
          | Option.none => (.err (.keyErrorProc name), [], c1, d1)
          | some (ps, body) =>
            match exec fuel (.instr body) d1 (freshStore name) (zipBind ps vs) with
            | (.ok _, _, cf, df) =>
              match cf (-1) with
              | some v => (.ok v, [], c1, df)
              | Option.none => (.err (.keyErrorCell (-1)), [], c1, df)
            | (.abortSig _, _, _, df) => (.err .attrError, [], c1, df)
            | (.breakSig _, _, _, df) => (.err .attrError, [], c1, df)
            | (.err e, _, _, df) => (.err e, [], c1, df)
        | r => r
    | .runL l =>
      match l with
      | [] => (.ok .none, [], c, d)
      | [a] => exec fuel (.instr a) d c p
      | a :: rest =>
        match exec fuel (.instr a) d c p with
        | (.ok _, _, c1, d1) => exec fuel (.runL rest) d1 c1 p
        | r => r
    | .argsL l =>
      match l with
      | [] => (.ok .none, [], c, d)
      | a :: rest =>
        match exec fuel (.instr a) d c p with
        | (.ok v, _, c1, d1) =>
          match exec fuel (.argsL rest) d1 c1 p with
          | (.ok u, vs, c2, d2) => (.ok u, v :: vs, c2, d2)
          | r => r
        | r => r
    | .iter body n =>
      match n with
      | 0 => (.ok .none, [], c, d)
      | m+1 =>
        match exec fuel (.instr body) d c p with
        | (.ok _, _, c1, d1) => exec fuel (.iter body m) d1 c1 p
        | (.abortSig k, _, c1, d1) =>
          match abortMatch k body with
          | .ok true => (.ok .none, [], c1, d1)
          | .ok false => (.abortSig k, [], c1, d1)
          | .error e => (.err e, [], c1, d1)
        | r => r
    | .mu body =>
      match exec fuel (.instr body) d c p with
      | (.ok _, _, c1, d1) => exec fuel (.mu body) d1 c1 p
      | (.abortSig k, _, c1, d1) =>
        match abortMatch k body with
        | .ok true => (.ok .none, [], c1, d1)
        | .ok false => (.abortSig k, [], c1, d1)
        | .error e => (.err e, [], c1, d1)
      | r => r

/-- runinstr(tup, decls, cells, params) restricted to its externally
visible effect: the outcome together with the cell store and registry
after the call. -/
def runinstr (fuel : Nat) (i : Instr) (d : Decls) (c : Cells) (p : Params) :
    Outcome × Cells × Decls :=
  let r := exec fuel (.instr i) d c p
  (r.1, r.2.2.1, r.2.2.2)

/-- run(instrs, decls, cells, params): folds runinstr over the list,
returning the last result. -/
def run (fuel : Nat) (l : List Instr) (d : Decls) (c : Cells) (p : Params) :
    Outcome × Cells × Decls :=
  let r := exec fuel (.runL l) d c p
  (r.1, r.2.2.1, r.2.2.2)

mutual
/-- Expression-shaped tuples: the translations of the grammar's intval and
boolexpr categories (num, bool literals, cell references and fetches,
parameter fetches, the five binary operators, and calls whose arguments are
again expressions).  These are exactly the shapes that can appear as call
arguments, and none of them contains an assignment. -/
def IsExprB : Instr → Bool
  | .bool _ => true
  | .num _ => true
  | .cell _ => true
  | .cellfetch _ => true
  | .paramfetch _ => true
  | .eq a b => IsExprB a && IsExprB b
  | .lt a b => IsExprB a && IsExprB b
  | .gt a b => IsExprB a && IsExprB b
  | .plus a b => IsExprB a && IsExprB b
  | .times a b => IsExprB a && IsExprB b
  | .call _ args => isExprList args
  | _ => false
def isExprList : List Instr → Bool
  | [] => true
  | a :: rest => IsExprB a && isExprList rest
end

/-- A token of the upstream Lark parse tree carrying its integer value and
source position, as used by SemanticError ([line:column] in the message). -/
structure Tok where
  val : Int
  line : Nat
  col : Nat
deriving DecidableEq, Repr

/-- The Lark parse tree as seen by the CheckBlocks visitor.  A tree for the
block rule has children [open NUMBER token, statement subtrees, close NUMBER
token]; every other rule is an interior node whose children the visitor
traverses without inspecting. -/
inductive PTree where
  | block (openTok : Tok) (kids : List PTree) (closeTok : Tok)
  | node (kids : List PTree)

/-- The SemanticError raised by CheckBlocks.block: both label numbers and
the line/column of the token passed to SemanticError, which is
tree.children[0], the opening label token. -/
structure BlockErr where
  openNum : Int
  closeNum : Int
  line : Nat
  col : Nat
deriving DecidableEq, Repr

mutual
/-- CheckBlocks().visit(tree): visits every subtree (children first, as
Visitor.visit does) and, for each block subtree, compares
int(children[0]) with int(children[-1]), raising SemanticError with the
opening token on mismatch. -/
def checkBlocks : PTree → Except BlockErr Unit
  | .block o kids cl =>
    match checkKids kids with
    | .error e => .error e
    | .ok _ =>
      if o.val ≠ cl.val then .error ⟨o.val, cl.val, o.line, o.col⟩ else .ok ()
  | .node kids => checkKids kids
def checkKids : List PTree → Except BlockErr Unit
  | [] => .ok ()
  | t :: ts =>
    match checkBlocks t with
    | .error e => .error e
    | .ok _ => checkKids ts
end

mutual
/-- Specification-side predicate: every block subtree has syntactically
equal opening and closing labels. -/
def allMatch : PTree → Bool
  | .block o kids cl => (o.val == cl.val) && allMatchKids kids
  | .node kids => allMatchKids kids
def allMatchKids : List PTree → Bool
  | [] => true
  | t :: ts => allMatch t && allMatchKids ts
end

mutual
/-- Some block subtree carries exactly the data recorded in the error:
its opening token has the error's value, line and column, and its closing
token has the error's closing value. -/
def hasBlockTok : PTree → BlockErr → Bool
  | .block o kids cl, e =>
    ((o.val == e.openNum) && (cl.val == e.closeNum) &&
      (o.line == e.line) && (o.col == e.col)) || hasBlockTokKids kids e
  | .node kids, e => hasBlockTokKids kids e
def hasBlockTokKids : List PTree → BlockErr → Bool
  | [], _ => false
  | t :: ts, e => hasBlockTok t e || hasBlockTokKids ts e
end

/-- Mutation of a parse tree that replaces the closing label token of
exactly one block subtree by a token with a different integer value. -/
inductive MutClose : PTree → PTree → Prop where
  | here {o : Tok} {kids : List PTree} {cl cl2 : Tok} :
      cl2.val ≠ cl.val → MutClose (.block o kids cl) (.block o kids cl2)
  | inBlock {o cl : Tok} {l r : List PTree} {t t2 : PTree} :
      MutClose t t2 →
      MutClose (.block o (l ++ t :: r) cl) (.block o (l ++ t2 :: r) cl)
  | inNode {l r : List PTree} {t t2 : PTree} :
      MutClose t t2 → MutClose (.node (l ++ t :: r)) (.node (l ++ t2 :: r))

/-- The pipeline of the program entry point: CheckBlocks().visit(tree) runs
first and aborts on SemanticError; only then is the built program evaluated
by run(ev, {}, {}, {}).  The Sema transformer (AST builder) is abstracted
as the already-built instruction list belonging to the parse tree. -/
def interpret (pt : PTree) (prog : List Instr) (fuel : Nat) :
    Except BlockErr (Outcome × Cells × Decls) :=
  match checkBlocks pt with
  | .error e => .error e
  | .ok _ => .ok (run fuel prog emptyDecls emptyCells emptyParams)

/-- The mu-loop of the C1 scenario: body block 1 increments cell 0 each
pass and aborts its own body label once CELL(0) = 5. -/
def muBody : Instr :=
  .block 1
    [ .assign (.cell 0) (.plus (.cellfetch 0) (.num 1)),
      .cond (.eq (.cellfetch 0) (.num 5)) (.block 2 [.abort 1]) ]

/-- Outer program for C1: initialise cell 0 to 0, then run the mu-loop. -/
def muProg : Instr :=
  .block 0 [ .assign (.cell 0) (.num 0), .loop Option.none muBody ]

/-- Registry with a two-parameter procedure whose body only uses its first
parameter (for the arity claims). -/
def declsF : Decls := fun n =>
  if n = "f" then some (["A", "B"], .block 0 [.assign (.cell (-1)) (.paramfetch "A")])
  else Option.none

/-- Registry with a two-parameter procedure whose body reads its second
parameter (for the unbound-parameter behaviour). -/
def declsG : Decls := fun n =>
  if n = "g" then some (["A", "B"], .block 0 [.assign (.cell (-1)) (.paramfetch "B")])
  else Option.none

/-- Registry with the add procedure of the spec scenario: parameters A, B
and body OUTPUT <= A + B. -/
def declsAdd : Decls := fun n =>
  if n = "add" then
    some (["A", "B"], .block 0 [.assign (.cell (-1)) (.plus (.paramfetch "A") (.paramfetch "B"))])
  else Option.none

/-- Registry with a predicate procedure (name carries the trailing marker)
whose body never assigns OUTPUT. -/
def declsPred : Decls := fun n =>
  if n = "p?" then some ([], .block 0 []) else Option.none

/-- Registry with a procedure that assigns OUTPUT twice; the call returns
the final value. -/
def declsTwice : Decls := fun n =>
  if n = "h" then
    some ([], .block 0 [.assign (.cell (-1)) (.num 1), .assign (.cell (-1)) (.num 4)])
  else Option.none

/-- C5 scenario: a bounded loop whose body block increments cell 0, quits
its own block label, and only then would write cell 1; the quit skips the
write but the loop still runs all three iterations. -/
def quitLoopProg : Instr :=
  .block 9
    [ .assign (.cell 0) (.num 0),
      .loop (some (.num 3))
        (.block 1
          [ .assign (.cell 0) (.plus (.cellfetch 0) (.num 1)),
            .quit 1,
            .assign (.cell 1) (.num 99) ]) ]

/-- C5 scenario: a quit whose tag skips the rest of an inner block with a
different label and is swallowed by the matching outer block. -/
def nestedQuitProg : Instr :=
  .block 5
    [ .block 6 [ .quit 5, .assign (.cell 2) (.num 1) ],
      .assign (.cell 3) (.num 1) ]

/-- C5 scenario: a quit that unwinds an enclosing loop (which intercepts
only Abort) before the matching block swallows it. -/
def quitThroughLoopProg : Instr :=
  .block 7
    [ .loop (some (.num 3)) (.block 1 [ .quit 7, .assign (.cell 0) (.num 1) ]),
      .assign (.cell 4) (.num 2) ]

/-- C6 scenario: LOOP 3 TIMES incrementing cell 0, no abort. -/
def countTo3Prog : Instr :=
  .block 9
    [ .assign (.cell 0) (.num 0),
      .loop (some (.num 3))
        (.block 1 [ .assign (.cell 0) (.plus (.cellfetch 0) (.num 1)) ]) ]

/-- C6 scenario: LOOP 10 TIMES with an abort of the body label once cell 0
reaches 3, ending the iteration early. -/
def abortEarlyProg : Instr :=
  .block 9
    [ .assign (.cell 0) (.num 0),
      .loop (some (.num 10))
        (.block 1
          [ .assign (.cell 0) (.plus (.cellfetch 0) (.num 1)),
            .cond (.eq (.cellfetch 0) (.num 3)) (.block 2 [.abort 1]) ]) ]

/-- Tasks whose evaluation only reads the cell store: expression
instructions and lists of expression arguments. -/
def exprTask : EvalTask → Bool
  | .instr i => IsExprB i
  | .argsL l => isExprList l
  | _ => false

lemma setCell_isSome {c : Cells} {i : Int} {v : Value} {k : Int}
    (h : (c k).isSome = true) : ((setCell c i v) k).isSome = true := by
  unfold setCell
  split <;> simp [h]

/-- Evaluation never removes a key from the cell store: dict item
assignment is the only mutation of cells and it only adds or overwrites
entries, so a key present before any evaluation step is still present
after it, whatever the outcome. -/
lemma exec_keeps :
    ∀ (fuel : Nat) (t : EvalTask) (d : Decls) (c : Cells) (p : Params) (k : Int),
      (c k).isSome = true → (((exec fuel t d c p).2.2.1) k).isSome = true := by
  intro fuel
  induction fuel with
  | zero => intro t d c p k hk; simpa [exec] using hk
  | succ fuel ih =>
    intro t d c p k hk
    have step : ∀ {t2 : EvalTask} {d2 : Decls} {c2 : Cells} {p2 : Params}
        {o : Outcome} {vs : List Value} {c3 : Cells} {d3 : Decls},
        exec fuel t2 d2 c2 p2 = (o, vs, c3, d3) →
        (c2 k).isSome = true → (c3 k).isSome = true := by
      intro t2 d2 c2 p2 o vs c3 d3 h hc
      have hx := ih t2 d2 c2 p2 k hc
      rwa [h] at hx
    cases t with
    | instr i =>
      cases i with
      | bool b => simpa [exec] using hk
      | num n => simpa [exec] using hk
      | abort n => simpa [exec] using hk
      | quit n => simpa [exec] using hk
      | cell j => simpa [exec] using hk
      | cellfetch j =>
        cases hcj : c j <;> simpa [exec, hcj] using hk
      | paramfetch s =>
        cases hps : p s <;> simpa [exec, hps] using hk
      | cond test body =>
        rcases h1 : exec fuel (.instr test) d c p with ⟨o1, v1, c1, d1⟩
        have hc1 := step h1 hk
        cases o1 with
        | ok v =>
          by_cases hv : pyTruthy v
          · rcases h2 : exec fuel (.instr body) d1 c1 p with ⟨o2, v2, c2, d2⟩
            have hc2 := step h2 hc1
            cases o2 <;> simpa [exec, h1, h2, hv] using hc2
          · simpa [exec, h1, hv] using hc1
        | abortSig n => simpa [exec, h1] using hc1
        | breakSig n => simpa [exec, h1] using hc1
        | err e => simpa [exec, h1] using hc1
      | eq a b =>
        rcases h1 : exec fuel (.instr a) d c p with ⟨o1, v1, c1, d1⟩
        have hc1 := step h1 hk
        cases o1 with
        | ok va =>
          rcases h2 : exec fuel (.instr b) d1 c1 p with ⟨o2, v2, c2, d2⟩
          have hc2 := step h2 hc1
          cases o2 <;> simpa [exec, h1, h2] using hc2
        | abortSig n => simpa [exec, h1] using hc1
        | breakSig n => simpa [exec, h1] using hc1
        | err e => simpa [exec, h1] using hc1
      | lt a b =>
        rcases h1 : exec fuel (.instr a) d c p with ⟨o1, v1, c1, d1⟩
        have hc1 := step h1 hk
        cases o1 with
        | ok va =>
          rcases h2 : exec fuel (.instr b) d1 c1 p with ⟨o2, v2, c2, d2⟩
          have hc2 := step h2 hc1
          cases o2 with
          | ok vb =>
            cases hp : pyLt va vb <;> simpa [exec, h1, h2, hp] using hc2
          | abortSig n => simpa [exec, h1, h2] using hc2
          | breakSig n => simpa [exec, h1, h2] using hc2
          | err e => simpa [exec, h1, h2] using hc2
        | abortSig n => simpa [exec, h1] using hc1
        | breakSig n => simpa [exec, h1] using hc1
        | err e => simpa [exec, h1] using hc1
      | gt a b =>
        rcases h1 : exec fuel (.instr a) d c p with ⟨o1, v1, c1, d1⟩
        have hc1 := step h1 hk
        cases o1 with
        | ok va =>
          rcases h2 : exec fuel (.instr b) d1 c1 p with ⟨o2, v2, c2, d2⟩
          have hc2 := step h2 hc1
          cases o2 with
          | ok vb =>
            cases hp : pyGt va vb <;> simpa [exec, h1, h2, hp] using hc2
          | abortSig n => simpa [exec, h1, h2] using hc2
          | breakSig n => simpa [exec, h1, h2] using hc2
          | err e => simpa [exec, h1, h2] using hc2
        | abortSig n => simpa [exec, h1] using hc1
        | breakSig n => simpa [exec, h1] using hc1
        | err e => simpa [exec, h1] using hc1
      | plus a b =>
        rcases h1 : exec fuel (.instr a) d c p with ⟨o1, v1, c1, d1⟩
        have hc1 := step h1 hk
        cases o1 with
        | ok va =>
          rcases h2 : exec fuel (.instr b) d1 c1 p with ⟨o2, v2, c2, d2⟩
          have hc2 := step h2 hc1
          cases o2 with
          | ok vb =>
            cases hp : pyAdd va vb <;> simpa [exec, h1, h2, hp] using hc2
          | abortSig n => simpa [exec, h1, h2] using hc2
          | breakSig n => simpa [exec, h1, h2] using hc2
          | err e => simpa [exec, h1, h2] using hc2
        | abortSig n => simpa [exec, h1] using hc1
        | breakSig n => simpa [exec, h1] using hc1
        | err e => simpa [exec, h1] using hc1
      | times a b =>
        rcases h1 : exec fuel (.instr a) d c p with ⟨o1, v1, c1, d1⟩
        have hc1 := step h1 hk
        cases o1 with
        | ok va =>
          rcases h2 : exec fuel (.instr b) d1 c1 p with ⟨o2, v2, c2, d2⟩
          have hc2 := step h2 hc1
          cases o2 with
          | ok vb =>
            cases hp : pyMul va vb <;> simpa [exec, h1, h2, hp] using hc2
          | abortSig n => simpa [exec, h1, h2] using hc2
          | breakSig n => simpa [exec, h1, h2] using hc2
          | err e => simpa [exec, h1, h2] using hc2
        | abortSig n => simpa [exec, h1] using hc1
        | breakSig n => simpa [exec, h1] using hc1
        | err e => simpa [exec, h1] using hc1
      | assign lhs rhs =>
        rcases h1 : exec fuel (.instr lhs) d c p with ⟨o1, v1, c1, d1⟩
        have hc1 := step h1 hk
        cases o1 with
        | ok lv =>
          cases lv with
          | cellref i =>
            rcases h2 : exec fuel (.instr rhs) d1 c1 p with ⟨o2, v2, c2, d2⟩
            have hc2 := step h2 hc1
            cases o2 with
            | ok v => simpa [exec, h1, h2] using setCell_isSome hc2
            | abortSig n => simpa [exec, h1, h2] using hc2
            | breakSig n => simpa [exec, h1, h2] using hc2
            | err e => simpa [exec, h1, h2] using hc2
          | int n => simpa [exec, h1] using hc1
          | bool b => simpa [exec, h1] using hc1
          | none => simpa [exec, h1] using hc1
        | abortSig n => simpa [exec, h1] using hc1
        | breakSig n => simpa [exec, h1] using hc1
        | err e => simpa [exec, h1] using hc1
      | loop bound body =>
        cases bound with
        | none =>
          rcases h1 : exec fuel (.mu body) d c p with ⟨o1, v1, c1, d1⟩
          have hc1 := step h1 hk
          cases o1 <;> simpa [exec, h1] using hc1
        | some be =>
          rcases h1 : exec fuel (.instr be) d c p with ⟨o1, v1, c1, d1⟩
          have hc1 := step h1 hk
          cases o1 with
          | ok v =>
            cases hr : rangeLen v with
            | ok n =>
              have hx := ih (.iter body n) d1 c1 p k hc1
              simpa [exec, h1, hr] using hx
            | error e => simpa [exec, h1, hr] using hc1
          | abortSig n => simpa [exec, h1] using hc1
          | breakSig n => simpa [exec, h1] using hc1
          | err e => simpa [exec, h1] using hc1
      | block n stmts =>
        rcases h1 : exec fuel (.runL stmts) d c p with ⟨o1, v1, c1, d1⟩
        have hc1 := step h1 hk
        cases o1 with
        | breakSig m =>
          by_cases hm : m ≠ n <;> simpa [exec, h1, hm] using hc1
        | ok v => simpa [exec, h1] using hc1
        | abortSig m => simpa [exec, h1] using hc1
        | err e => simpa [exec, h1] using hc1
      | decl name ps body => simpa [exec] using hk
      | call name args =>
        rcases h1 : exec fuel (.argsL args) d c p with ⟨o1, vs, c1, d1⟩
        have hc1 := step h1 hk
        cases o1 with
        | ok u =>
          cases hd : d1 name with
          | none => simpa [exec, h1, hd] using hc1
          | some pr =>
            rcases pr with ⟨ps, body⟩
            rcases h2 : exec fuel (.instr body) d1 (freshStore name) (zipBind ps vs)
              with ⟨o2, v2, cf, df⟩
            cases o2 with
            | ok v =>
              cases hcf : cf (-1) <;> simpa [exec, h1, hd, h2, hcf] using hc1
            | abortSig m => simpa [exec, h1, hd, h2] using hc1
            | breakSig m => simpa [exec, h1, hd, h2] using hc1
            | err e => simpa [exec, h1, hd, h2] using hc1
        | abortSig m => simpa [exec, h1] using hc1
        | breakSig m => simpa [exec, h1] using hc1
        | err e => simpa [exec, h1] using hc1
    | runL l =>
      cases l with
      | nil => simpa [exec] using hk
      | cons a tl =>
        cases tl with
        | nil =>
          have hx := ih (.instr a) d c p k hk
          simpa [exec] using hx
        | cons b tl2 =>
          rcases h1 : exec fuel (.instr a) d c p with ⟨o1, v1, c1, d1⟩
          have hc1 := step h1 hk
          cases o1 with
          | ok v =>
            have hx := ih (.runL (b :: tl2)) d1 c1 p k hc1
            simpa [exec, h1] using hx
          | abortSig n => simpa [exec, h1] using hc1
          | breakSig n => simpa [exec, h1] using hc1
          | err e => simpa [exec, h1] using hc1
    | argsL l =>
      cases l with
      | nil => simpa [exec] using hk
      | cons a tl =>
        rcases h1 : exec fuel (.instr a) d c p with ⟨o1, v1, c1, d1⟩
        have hc1 := step h1 hk
        cases o1 with
        | ok v =>
          rcases h2 : exec fuel (.argsL tl) d1 c1 p with ⟨o2, v2, c2, d2⟩
          have hc2 := step h2 hc1
          cases o2 <;> simpa [exec, h1, h2] using hc2
        | abortSig n => simpa [exec, h1] using hc1
        | breakSig n => simpa [exec, h1] using hc1
        | err e => simpa [exec, h1] using hc1
    | iter body n =>
      cases n with
      | zero => simpa [exec] using hk
      | succ m =>
        rcases h1 : exec fuel (.instr body) d c p with ⟨o1, v1, c1, d1⟩
        have hc1 := step h1 hk
        cases o1 with
        | ok v =>
          have hx := ih (.iter body m) d1 c1 p k hc1
          simpa [exec, h1] using hx
        | abortSig k2 =>
          cases ham : abortMatch k2 body with
          | ok bv => cases bv <;> simpa [exec, h1, ham] using hc1
          | error e => simpa [exec, h1, ham] using hc1
        | breakSig n2 => simpa [exec, h1] using hc1
        | err e => simpa [exec, h1] using hc1
    | mu body =>
      rcases h1 : exec fuel (.instr body) d c p with ⟨o1, v1, c1, d1⟩
      have hc1 := step h1 hk
      cases o1 with
      | ok v =>
        have hx := ih (.mu body) d1 c1 p k hc1
        simpa [exec, h1] using hx
      | abortSig k2 =>
        cases ham : abortMatch k2 body with
        | ok bv => cases bv <;> simpa [exec, h1, ham] using hc1
        | error e => simpa [exec, h1, ham] using hc1
      | breakSig n2 => simpa [exec, h1] using hc1
      | err e => simpa [exec, h1] using hc1

/-- Evaluating an expression-shaped task leaves the cell store untouched:
expressions contain no assignment, and a call inside an expression runs its
body against a fresh store while the caller keeps its own. -/
lemma exec_expr_cells :
    ∀ (fuel : Nat) (t : EvalTask) (d : Decls) (c : Cells) (p : Params),
      exprTask t = true → (exec fuel t d c p).2.2.1 = c := by
  intro fuel
  induction fuel with
  | zero => intro t d c p _; simp only [exec]
  | succ fuel ih =>
    intro t d c p ht
    have step : ∀ {t2 : EvalTask} {d2 : Decls} {c2 : Cells} {p2 : Params}
        {o : Outcome} {vs : List Value} {c3 : Cells} {d3 : Decls},
        exec fuel t2 d2 c2 p2 = (o, vs, c3, d3) →
        exprTask t2 = true → c3 = c2 := by
      intro t2 d2 c2 p2 o vs c3 d3 h he
      have hx := ih t2 d2 c2 p2 he
      rw [h] at hx
      exact hx
    cases t with
    | instr i =>
      simp only [exprTask] at ht
      cases i with
      | bool b => simp only [exec]
      | num n => simp only [exec]
      | abort n => simp [IsExprB] at ht
      | quit n => simp [IsExprB] at ht
      | cell j => simp only [exec]
      | cellfetch j => cases hcj : c j <;> simp only [exec, hcj]
      | paramfetch s => cases hps : p s <;> simp only [exec, hps]
      | cond test body => simp [IsExprB] at ht
      | eq a b =>
        rw [IsExprB] at ht
        simp only [Bool.and_eq_true] at ht
        rcases h1 : exec fuel (.instr a) d c p with ⟨o1, v1, c1, d1⟩
        have hc1 : c1 = c := step h1 (by simpa [exprTask] using ht.1)
        cases o1 with
        | ok va =>
          rcases h2 : exec fuel (.instr b) d1 c1 p with ⟨o2, v2, c2, d2⟩
          have hc2 : c2 = c := by
            rw [step h2 (by simpa [exprTask] using ht.2)]
            exact hc1
          cases o2 with
          | ok vb => simp only [exec, h1, h2, hc2]
          | abortSig n => simp only [exec, h1, h2, hc2]
          | breakSig n => simp only [exec, h1, h2, hc2]
          | err e => simp only [exec, h1, h2, hc2]
        | abortSig n => simp only [exec, h1, hc1]
        | breakSig n => simp only [exec, h1, hc1]
        | err e => simp only [exec, h1, hc1]
      | lt a b =>
        rw [IsExprB] at ht
        simp only [Bool.and_eq_true] at ht
        rcases h1 : exec fuel (.instr a) d c p with ⟨o1, v1, c1, d1⟩
        have hc1 : c1 = c := step h1 (by simpa [exprTask] using ht.1)
        cases o1 with
        | ok va =>
          rcases h2 : exec fuel (.instr b) d1 c1 p with ⟨o2, v2, c2, d2⟩
          have hc2 : c2 = c := by
            rw [step h2 (by simpa [exprTask] using ht.2)]
            exact hc1
          cases o2 with
          | ok vb => cases hp : pyLt va vb <;> simp only [exec, h1, h2, hp, hc2]
          | abortSig n => simp only [exec, h1, h2, hc2]
          | breakSig n => simp only [exec, h1, h2, hc2]
          | err e => simp only [exec, h1, h2, hc2]
        | abortSig n => simp only [exec, h1, hc1]
        | breakSig n => simp only [exec, h1, hc1]
        | err e => simp only [exec, h1, hc1]
      | gt a b =>
        rw [IsExprB] at ht
        simp only [Bool.and_eq_true] at ht
        rcases h1 : exec fuel (.instr a) d c p with ⟨o1, v1, c1, d1⟩
        have hc1 : c1 = c := step h1 (by simpa [exprTask] using ht.1)
        cases o1 with
        | ok va =>
          rcases h2 : exec fuel (.instr b) d1 c1 p with ⟨o2, v2, c2, d2⟩
          have hc2 : c2 = c := by
            rw [step h2 (by simpa [exprTask] using ht.2)]
            exact hc1
          cases o2 with
          | ok vb => cases hp : pyGt va vb <;> simp only [exec, h1, h2, hp, hc2]
          | abortSig n => simp only [exec, h1, h2, hc2]
          | breakSig n => simp only [exec, h1, h2, hc2]
          | err e => simp only [exec, h1, h2, hc2]
        | abortSig n => simp only [exec, h1, hc1]
        | breakSig n => simp only [exec, h1, hc1]
        | err e => simp only [exec, h1, hc1]
      | plus a b =>
        rw [IsExprB] at ht
        simp only [Bool.and_eq_true] at ht
        rcases h1 : exec fuel (.instr a) d c p with ⟨o1, v1, c1, d1⟩
        have hc1 : c1 = c := step h1 (by simpa [exprTask] using ht.1)
        cases o1 with
        | ok va =>
          rcases h2 : exec fuel (.instr b) d1 c1 p with ⟨o2, v2, c2, d2⟩
          have hc2 : c2 = c := by
            rw [step h2 (by simpa [exprTask] using ht.2)]
            exact hc1
          cases o2 with
          | ok vb => cases hp : pyAdd va vb <;> simp only [exec, h1, h2, hp, hc2]
          | abortSig n => simp only [exec, h1, h2, hc2]
          | breakSig n => simp only [exec, h1, h2, hc2]
          | err e => simp only [exec, h1, h2, hc2]
        | abortSig n => simp only [exec, h1, hc1]
        | breakSig n => simp only [exec, h1, hc1]
        | err e => simp only [exec, h1, hc1]
      | times a b =>
        rw [IsExprB] at ht
        simp only [Bool.and_eq_true] at ht
        rcases h1 : exec fuel (.instr a) d c p with ⟨o1, v1, c1, d1⟩
        have hc1 : c1 = c := step h1 (by simpa [exprTask] using ht.1)
        cases o1 with
        | ok va =>
          rcases h2 : exec fuel (.instr b) d1 c1 p with ⟨o2, v2, c2, d2⟩
          have hc2 : c2 = c := by
            rw [step h2 (by simpa [exprTask] using ht.2)]
            exact hc1
          cases o2 with
          | ok vb => cases hp : pyMul va vb <;> simp only [exec, h1, h2, hp, hc2]
          | abortSig n => simp only [exec, h1, h2, hc2]
          | breakSig n => simp only [exec, h1, h2, hc2]
          | err e => simp only [exec, h1, h2, hc2]
        | abortSig n => simp only [exec, h1, hc1]
        | breakSig n => simp only [exec, h1, hc1]
        | err e => simp only [exec, h1, hc1]
      | assign lhs rhs => simp [IsExprB] at ht
      | loop bound body => simp [IsExprB] at ht
      | block n stmts => simp [IsExprB] at ht
      | decl name ps body => simp [IsExprB] at ht
      | call name args =>
        rw [IsExprB] at ht
        rcases h1 : exec fuel (.argsL args) d c p with ⟨o1, vs, c1, d1⟩
        have hc1 : c1 = c := step h1 (by simpa [exprTask] using ht)
        cases o1 with
        | ok u =>
          cases hd : d1 name with
          | none => simp only [exec, h1, hd, hc1]
          | some pr =>
            rcases pr with ⟨ps, body⟩
            rcases h2 : exec fuel (.instr body) d1 (freshStore name) (zipBind ps vs)
              with ⟨o2, v2, cf, df⟩
            cases o2 with
            | ok v => cases hcf : cf (-1) <;> simp only [exec, h1, hd, h2, hcf, hc1]
            | abortSig m => simp only [exec, h1, hd, h2, hc1]
            | breakSig m => simp only [exec, h1, hd, h2, hc1]
            | err e => simp only [exec, h1, hd, h2, hc1]
        | abortSig m => simp only [exec, h1, hc1]
        | breakSig m => simp only [exec, h1, hc1]
        | err e => simp only [exec, h1, hc1]
    | runL l => simp [exprTask] at ht
    | argsL l =>
      simp only [exprTask] at ht
      cases l with
      | nil => simp only [exec]
      | cons a tl =>
        rw [isExprList] at ht
        simp only [Bool.and_eq_true] at ht
        rcases h1 : exec fuel (.instr a) d c p with ⟨o1, v1, c1, d1⟩
        have hc1 : c1 = c := step h1 (by simpa [exprTask] using ht.1)
        cases o1 with
        | ok v =>
          rcases h2 : exec fuel (.argsL tl) d1 c1 p with ⟨o2, v2, c2, d2⟩
          have hc2 : c2 = c := by
            rw [step h2 (by simpa [exprTask] using ht.2)]
            exact hc1
          cases o2 <;> simp only [exec, h1, h2, hc2]
        | abortSig n => simp only [exec, h1, hc1]
        | breakSig n => simp only [exec, h1, hc1]
        | err e => simp only [exec, h1, hc1]
    | iter body n => simp [exprTask] at ht
    | mu body => simp [exprTask] at ht

lemma allMatchKids_append :
    ∀ l r : List PTree, allMatchKids (l ++ r) = (allMatchKids l && allMatchKids r) := by
  intro l r
  induction l with
  | nil => simp [allMatchKids]
  | cons t ts ihl => simp [allMatchKids, ihl, Bool.and_assoc]

/-- Joint statement for the visitor and the label predicate, proved by
strong induction on the size of the parse tree. -/
lemma checkBlocks_iff_aux :
    ∀ n : Nat,
      (∀ pt : PTree, sizeOf pt ≤ n →
        ((checkBlocks pt = .ok ()) ↔ allMatch pt = true)) ∧
      (∀ l : List PTree, sizeOf l ≤ n →
        ((checkKids l = .ok ()) ↔ allMatchKids l = true)) := by
  intro n
  induction n using Nat.strong_induction_on with
  | _ n ih =>
    constructor
    · intro pt hpt
      cases pt with
      | block o kids cl =>
        have hsz : sizeOf kids < n := by
          have : sizeOf kids < sizeOf (PTree.block o kids cl) := by simp; omega
          omega
        have hkids := (ih (sizeOf kids) hsz).2 kids le_rfl
        cases hck : checkKids kids with
        | error e =>
          have hkf : allMatchKids kids = false := by
            cases hkv : allMatchKids kids with
            | false => rfl
            | true => rw [← hkids] at hkv; rw [hck] at hkv; cases hkv
          simp [checkBlocks, hck, allMatch, hkf]
        | ok u =>
          cases u
          have hkt : allMatchKids kids = true := hkids.mp hck
          by_cases hv : o.val = cl.val
          · simp [checkBlocks, hck, allMatch, hkt, hv]
          · simp [checkBlocks, hck, allMatch, hkt, hv]
      | node kids =>
        have hsz : sizeOf kids < n := by
          have : sizeOf kids < sizeOf (PTree.node kids) := by simp
          omega
        have hkids := (ih (sizeOf kids) hsz).2 kids le_rfl
        simpa [checkBlocks, allMatch] using hkids
    · intro l hl
      cases l with
      | nil => simp [checkKids, allMatchKids]
      | cons t ts =>
        have hszt : sizeOf t < n := by
          have : sizeOf t < sizeOf (t :: ts) := by simp; omega
          omega
        have hszts : sizeOf ts < n := by
          have : sizeOf ts < sizeOf (t :: ts) := by simp
          omega
        have hht := (ih (sizeOf t) hszt).1 t le_rfl
        have hhts := (ih (sizeOf ts) hszts).2 ts le_rfl
        cases hct : checkBlocks t with
        | error e =>
          have htf : allMatch t = false := by
            cases hkv : allMatch t with
            | false => rfl
            | true => rw [← hht] at hkv; rw [hct] at hkv; cases hkv
          simp [checkKids, hct, allMatchKids, htf]
        | ok u =>
          cases u
          have htt : allMatch t = true := hht.mp hct
          simpa [checkKids, hct, allMatchKids, htt] using hhts

lemma checkBlocks_iff (pt : PTree) :
    (checkBlocks pt = .ok ()) ↔ allMatch pt = true :=
  (checkBlocks_iff_aux (sizeOf pt)).1 pt le_rfl

/-- Joint statement for the content of a raised SemanticError, again by
strong induction on size. -/
lemma checkBlocks_err_aux :
    ∀ n : Nat,
      (∀ pt : PTree, sizeOf pt ≤ n → ∀ e : BlockErr, checkBlocks pt = .error e →
        hasBlockTok pt e = true ∧ e.openNum ≠ e.closeNum) ∧
      (∀ l : List PTree, sizeOf l ≤ n → ∀ e : BlockErr, checkKids l = .error e →
        hasBlockTokKids l e = true ∧ e.openNum ≠ e.closeNum) := by
  intro n
  induction n using Nat.strong_induction_on with
  | _ n ih =>
    constructor
    · intro pt hpt e he
      cases pt with
      | block o kids cl =>
        have hsz : sizeOf kids < n := by
          have : sizeOf kids < sizeOf (PTree.block o kids cl) := by simp; omega
          omega
        cases hck : checkKids kids with
        | error e0 =>
          rw [checkBlocks, hck] at he
          cases he
          have hres := (ih (sizeOf kids) hsz).2 kids le_rfl e hck
          exact ⟨by simp [hasBlockTok, hres.1], hres.2⟩
        | ok u =>
          cases u
          rw [checkBlocks, hck] at he
          by_cases hv : o.val ≠ cl.val
          · rw [if_pos hv] at he
            cases he
            refine ⟨by simp [hasBlockTok], by simpa using hv⟩
          · rw [if_neg hv] at he
            cases he
      | node kids =>
        have hsz : sizeOf kids < n := by
          have : sizeOf kids < sizeOf (PTree.node kids) := by simp
          omega
        rw [checkBlocks] at he
        have hres := (ih (sizeOf kids) hsz).2 kids le_rfl e he
        exact ⟨by simp [hasBlockTok, hres.1], hres.2⟩
    · intro l hl e he
      cases l with
      | nil => rw [checkKids] at he; cases he
      | cons t ts =>
        have hszt : sizeOf t < n := by
          have : sizeOf t < sizeOf (t :: ts) := by simp; omega
          omega
        have hszts : sizeOf ts < n := by
          have : sizeOf ts < sizeOf (t :: ts) := by simp
          omega
        cases hct : checkBlocks t with
        | error e0 =>
          rw [checkKids, hct] at he
          cases he
          have hres := (ih (sizeOf t) hszt).1 t le_rfl e hct
          exact ⟨by simp [hasBlockTokKids, hres.1], hres.2⟩
        | ok u =>
          cases u
          rw [checkKids, hct] at he
          have hres := (ih (sizeOf ts) hszts).2 ts le_rfl e he
          exact ⟨by simp [hasBlockTokKids, hres.1], hres.2⟩

lemma checkBlocks_err (pt : PTree) (e : BlockErr) (h : checkBlocks pt = .error e) :
    hasBlockTok pt e = true ∧ e.openNum ≠ e.closeNum :=
  (checkBlocks_err_aux (sizeOf pt)).1 pt le_rfl e h

/-- Replacing one closing label by a different integer falsifies the
all-labels-match predicate. -/
lemma mutClose_breaks {pt pt2 : PTree} (h : MutClose pt pt2) :
    allMatch pt = true → allMatch pt2 = false := by
  induction h with
  | here hne =>
    intro hm
    rename_i o kids cl cl2
    rw [allMatch, Bool.and_eq_true, beq_iff_eq] at hm
    rw [allMatch]
    have hbe : (o.val == cl2.val) = false := by
      simp only [beq_eq_false_iff_ne, ne_eq]
      rw [hm.1]
      exact fun hx => hne hx.symm
    simp [hbe]
  | inBlock hsub ihsub =>
    intro hm
    rename_i o cl l r t t2
    rw [allMatch, Bool.and_eq_true, allMatchKids_append, Bool.and_eq_true,
      allMatchKids, Bool.and_eq_true] at hm
    have ht2 : allMatch t2 = false := ihsub hm.2.2.1
    rw [allMatch, allMatchKids_append, allMatchKids, ht2]
    simp
  | inNode hsub ihsub =>
    intro hm
    rename_i l r t t2
    rw [allMatch, allMatchKids_append, Bool.and_eq_true,
      allMatchKids, Bool.and_eq_true] at hm
    have ht2 : allMatch t2 = false := ihsub hm.2.1
    rw [allMatch, allMatchKids_append, allMatchKids, ht2]
    simp

/-- C1: the concrete mu-loop scenario of the claim (cell 0 incremented each
pass, an abort of the body's own label once CELL(0) = 5).  The five passes
do happen and cell 0 ends at integer 5, but the evaluation does not
terminate normally: after the matching Abort breaks the while-loop, the
loop handler falls through to the bounded branch and evaluates
runinstr(None, ...), whose tuple unpacking raises TypeError. -/
theorem C1_muloop_abort_crashes :
    (runinstr 200 muProg emptyDecls emptyCells emptyParams).1 = .err .typeError ∧
    (runinstr 200 muProg emptyDecls emptyCells emptyParams).2.1 0 = some (.int 5) := by
  decide

/-- C2 counterexample: calling the two-parameter procedure f with a single
argument does not fail with any arity error; the call completes normally
and returns the value bound to the first parameter. -/
theorem C2_counterexample :
    (runinstr 60 (.call "f" [.num 7]) declsF emptyCells emptyParams).1 = .ok (.int 7) := by
  decide

/-- C2 amended: the evaluator performs no arity check.  dict(zip(params,
args)) binds parameters positionally up to the shorter list (extra
arguments are dropped, missing ones stay unbound) and evaluation proceeds;
an unbound parameter only fails later, when referenced, with the KeyError
of the params lookup. -/
theorem C2_no_arity_check :
    (runinstr 60 (.call "f" [.num 7]) declsF emptyCells emptyParams).1 = .ok (.int 7) ∧
    (runinstr 60 (.call "f" [.num 7, .num 8, .num 9]) declsF emptyCells emptyParams).1
      = .ok (.int 7) ∧
    zipBind ["A", "B"] [.int 7] "A" = some (.int 7) ∧
    zipBind ["A", "B"] [.int 7] "B" = Option.none ∧
    (runinstr 60 (.call "g" [.num 7]) declsG emptyCells emptyParams).1
      = .err (.keyErrorParam "B") := by
  decide

/-- C3 counterexample: adding a Boolean to an Integer produces integer 2
(Python bool is an int), and equality on mismatched tags produces a
Boolean; neither fails with any type error. -/
theorem C3_counterexample :
    (runinstr 20 (.plus (.bool true) (.num 1)) emptyDecls emptyCells emptyParams).1
      = .ok (.int 2) ∧
    (runinstr 20 (.eq (.bool true) (.num 5)) emptyDecls emptyCells emptyParams).1
      = .ok (.bool false) := by
  decide

/-- C3 amended: arithmetic and ordering accept Boolean operands by the
int-subtype coercion True = 1, False = 0 and succeed; only operand values
outside Integer/Boolean (the transient CellRef, or None) raise the Python
TypeError; equality never fails and compares mismatched tags numerically. -/
theorem C3_numeric_coercion :
    (∀ (v w : Value) (x y : Int), toI v = some x → toI w = some y →
      pyAdd v w = .ok (.int (x + y)) ∧ pyMul v w = .ok (.int (x * y)) ∧
      pyLt v w = .ok (.bool (decide (x < y))) ∧ pyGt v w = .ok (.bool (decide (x > y)))) ∧
    (∀ v w : Value, toI v = Option.none ∨ toI w = Option.none →
      pyAdd v w = .error .typeError ∧ pyMul v w = .error .typeError ∧
      pyLt v w = .error .typeError ∧ pyGt v w = .error .typeError) ∧
    (runinstr 20 (.plus (.bool true) (.num 1)) emptyDecls emptyCells emptyParams).1
      = .ok (.int 2) ∧
    (runinstr 20 (.eq (.bool true) (.num 5)) emptyDecls emptyCells emptyParams).1
      = .ok (.bool false) := by
  refine ⟨?_, ?_, by decide, by decide⟩
  · intro v w x y hx hy
    refine ⟨?_, ?_, ?_, ?_⟩ <;> simp [pyAdd, pyMul, pyLt, pyGt, hx, hy]
  · intro v w h
    rcases h with h | h
    · cases hw : toI w <;> refine ⟨?_, ?_, ?_, ?_⟩ <;> simp [pyAdd, pyMul, pyLt, pyGt, h, hw]
    · cases hv : toI v <;> refine ⟨?_, ?_, ?_, ?_⟩ <;> simp [pyAdd, pyMul, pyLt, pyGt, h, hv]

theorem C3_numeric_coercion_witness :
    pyAdd (Value.bool true) (Value.int 1) = .ok (.int 2) ∧
    pyAdd (Value.cellref 0) (Value.int 1) = .error .typeError := by
  constructor
  · simpa using (C3_numeric_coercion.1 (Value.bool true) (Value.int 1) 1 1 rfl rfl).1
  · exact (C3_numeric_coercion.2.1 (Value.cellref 0) (Value.int 1) (Or.inl rfl)).1

/-- C4: the fresh store of every call seeds output cell -1 with Boolean
false for a predicate procedure (trailing marker) and Integer 0 otherwise,
and the call returns the final value of cell -1 of that store: add(2,3)
with body OUTPUT <= A + B returns integer 5; a predicate procedure that
never assigns OUTPUT returns boolean false; a body that assigns OUTPUT
twice returns the final value. -/
theorem C4_call_output_cell :
    (∀ name : String, freshStore name (-1) =
      some (if isTestName name then Value.bool false else Value.int 0)) ∧
    (runinstr 60 (.call "add" [.num 2, .num 3]) declsAdd emptyCells emptyParams).1
      = .ok (.int 5) ∧
    (runinstr 60 (.call "p?" []) declsPred emptyCells emptyParams).1 = .ok (.bool false) ∧
    (runinstr 60 (.call "h" []) declsTwice emptyCells emptyParams).1 = .ok (.int 4) := by
  exact ⟨fun name => rfl, by decide, by decide, by decide⟩

/-- C5: a Break signal reaching a Block evaluation is swallowed exactly
when its tag equals the block's label and re-raised unchanged otherwise;
loops do not intercept it.  The concrete programs show: a quit of the
loop-body label ends only the current iteration and the loop still runs
all three passes; a quit propagates through an inner block with a
different label to the matching outer block; and a quit unwinds an
enclosing bounded loop before being swallowed. -/
theorem C5_quit_block_semantics :
    (∀ (fuel : Nat) (n blocknum : Int) (stmts : List Instr) (d : Decls) (c : Cells)
        (p : Params) (vs : List Value) (c1 : Cells) (d1 : Decls),
      exec fuel (.runL stmts) d c p = (.breakSig n, vs, c1, d1) →
      runinstr (fuel+1) (.block blocknum stmts) d c p =
        ((if n = blocknum then Outcome.ok Value.none else Outcome.breakSig n), c1, d1)) ∧
    ((runinstr 200 quitLoopProg emptyDecls emptyCells emptyParams).1 = .ok Value.none ∧
      (runinstr 200 quitLoopProg emptyDecls emptyCells emptyParams).2.1 0 = some (.int 3) ∧
      (runinstr 200 quitLoopProg emptyDecls emptyCells emptyParams).2.1 1 = Option.none) ∧
    ((runinstr 60 nestedQuitProg emptyDecls emptyCells emptyParams).1 = .ok Value.none ∧
      (runinstr 60 nestedQuitProg emptyDecls emptyCells emptyParams).2.1 2 = Option.none ∧
      (runinstr 60 nestedQuitProg emptyDecls emptyCells emptyParams).2.1 3 = Option.none) ∧
    ((runinstr 200 quitThroughLoopProg emptyDecls emptyCells emptyParams).1 = .ok Value.none ∧
      (runinstr 200 quitThroughLoopProg emptyDecls emptyCells emptyParams).2.1 0 = Option.none ∧
      (runinstr 200 quitThroughLoopProg emptyDecls emptyCells emptyParams).2.1 4 = Option.none) := by
  refine ⟨?_, by decide, by decide, by decide⟩
  intro fuel n blocknum stmts d c p vs c1 d1 h
  by_cases hb : n = blocknum
  · simp only [runinstr, exec, h]
    simp [hb]
  · simp only [runinstr, exec, h]
    simp [hb]

theorem C5_quit_block_semantics_witness :
    runinstr 4 (.block 3 [.quit 3] : Instr) emptyDecls emptyCells emptyParams =
      (Outcome.ok Value.none, emptyCells, emptyDecls) := by
  have h := C5_quit_block_semantics.1 3 3 3 [.quit 3] emptyDecls emptyCells emptyParams
      [] emptyCells emptyDecls rfl
  simpa using h

/-- C6: a bounded loop first evaluates its bound expression (a failure
there is the loop's result and no iteration runs); a loop bounded by
literal 0 performs no iteration and leaves the store and registry exactly
as they were; the concrete programs run the body exactly 3 times against
the same store, and an abort of the body label ends a 10-bounded loop
after 3 passes. -/
theorem C6_bounded_loop :
    (∀ (fuel : Nat) (body : Instr) (d : Decls) (c : Cells) (p : Params),
      runinstr (fuel+2) (.loop (some (.num 0)) body) d c p = (.ok Value.none, c, d)) ∧
    (∀ (fuel : Nat) (be body : Instr) (d : Decls) (c : Cells) (p : Params)
        (e : Err) (vs : List Value) (c1 : Cells) (d1 : Decls),
      exec fuel (.instr be) d c p = (.err e, vs, c1, d1) →
      runinstr (fuel+1) (.loop (some be) body) d c p = (.err e, c1, d1)) ∧
    ((runinstr 200 countTo3Prog emptyDecls emptyCells emptyParams).1 = .ok Value.none ∧
      (runinstr 200 countTo3Prog emptyDecls emptyCells emptyParams).2.1 0 = some (.int 3)) ∧
    ((runinstr 200 abortEarlyProg emptyDecls emptyCells emptyParams).1 = .ok Value.none ∧
      (runinstr 200 abortEarlyProg emptyDecls emptyCells emptyParams).2.1 0 = some (.int 3)) := by
  refine ⟨?_, ?_, by decide, by decide⟩
  · intro fuel body d c p
    rfl
  · intro fuel be body d c p e vs c1 d1 h
    simp only [runinstr, exec, h]

theorem C6_bounded_loop_witness :
    runinstr 2 (.loop (some (.cellfetch 5)) (.block 1 []) : Instr)
        emptyDecls emptyCells emptyParams
      = (.err (.keyErrorCell 5), emptyCells, emptyDecls) :=
  C6_bounded_loop.2.1 1 (.cellfetch 5) (.block 1 []) emptyDecls emptyCells emptyParams
    (.keyErrorCell 5) [] emptyCells emptyDecls rfl

/-- C7: the Block Validator accepts exactly the parse trees in which every
block's opening and closing labels are equal; a raised error carries both
label numbers and the line/column of the offending opening token; changing
any single closing label of an accepted tree to a different integer causes
rejection; and when the validator fails, the pipeline fails with that
error before any evaluation runs. -/
theorem C7_block_validator :
    (∀ pt : PTree, checkBlocks pt = .ok () ↔ allMatch pt = true) ∧
    (∀ (pt : PTree) (e : BlockErr), checkBlocks pt = .error e →
      hasBlockTok pt e = true ∧ e.openNum ≠ e.closeNum) ∧
    (∀ pt pt2 : PTree, allMatch pt = true → MutClose pt pt2 →
      ∃ e : BlockErr, checkBlocks pt2 = .error e) ∧
    (∀ (pt : PTree) (prog : List Instr) (fuel : Nat) (e : BlockErr),
      checkBlocks pt = .error e → interpret pt prog fuel = .error e) := by
  refine ⟨checkBlocks_iff, checkBlocks_err, ?_, ?_⟩
  · intro pt pt2 hm hmc
    have hf : allMatch pt2 = false := mutClose_breaks hmc hm
    cases hcb : checkBlocks pt2 with
    | error e => exact ⟨e, rfl⟩
    | ok u =>
      cases u
      have hx := (checkBlocks_iff pt2).mp hcb
      rw [hf] at hx
      cases hx
  · intro pt prog fuel e he
    simp [interpret, he]

theorem C7_block_validator_witness :
    (hasBlockTok (.block ⟨1, 3, 5⟩ [] ⟨2, 7, 9⟩) ⟨1, 2, 3, 5⟩ = true ∧ (1 : Int) ≠ 2) ∧
    (∃ e : BlockErr, checkBlocks (.block ⟨1, 0, 0⟩ [] ⟨2, 0, 4⟩) = .error e) ∧
    interpret (.block ⟨1, 3, 5⟩ [] ⟨2, 7, 9⟩) [] 0 = .error ⟨1, 2, 3, 5⟩ := by
  refine ⟨C7_block_validator.2.1 _ _ rfl,
    C7_block_validator.2.2.1 (.block ⟨1, 0, 0⟩ [] ⟨1, 0, 4⟩) _ rfl (MutClose.here (by decide)),
    C7_block_validator.2.2.2 _ [] 0 _ rfl⟩

/-- C8: fetching a cell that is absent from the store fails fatally with
the KeyError carrying that index (the condition the spec names
UninitializedCell), while cell -1 is seeded at activation start and no
evaluation step ever removes a store key, so within an activation a fetch
of cell -1 always succeeds, whatever the body did before it. -/
theorem C8_uninitialized_cell :
    (∀ (fuel : Nat) (i : Int) (d : Decls) (c : Cells) (p : Params),
      c i = Option.none →
      runinstr (fuel+1) (.cellfetch i) d c p = (.err (.keyErrorCell i), c, d)) ∧
    (∀ (fuel : Nat) (name : String) (body : Instr) (d : Decls) (ps : Params),
      (((exec fuel (.instr body) d (freshStore name) ps).2.2.1) (-1)).isSome = true) ∧
    (∀ (fuel : Nat) (name : String) (body : Instr) (d : Decls) (ps : Params)
        (g : Nat) (dd : Decls) (pp : Params),
      ∃ v : Value,
        runinstr (g+1) (.cellfetch (-1)) dd
            ((exec fuel (.instr body) d (freshStore name) ps).2.2.1) pp =
          (.ok v, (exec fuel (.instr body) d (freshStore name) ps).2.2.1, dd)) := by
  have hseed : ∀ name : String, ((freshStore name) (-1)).isSome = true := by
    intro name
    simp [freshStore]
  have hkeep : ∀ (fuel : Nat) (name : String) (body : Instr) (d : Decls) (ps : Params),
      (((exec fuel (.instr body) d (freshStore name) ps).2.2.1) (-1)).isSome = true := by
    intro fuel name body d ps
    exact exec_keeps fuel (.instr body) d (freshStore name) ps (-1) (hseed name)
  refine ⟨?_, hkeep, ?_⟩
  · intro fuel i d c p h
    simp only [runinstr, exec, h]
  · intro fuel name body d ps g dd pp
    cases hcf : ((exec fuel (.instr body) d (freshStore name) ps).2.2.1) (-1) with
    | none =>
      have hx := hkeep fuel name body d ps
      rw [hcf] at hx
      cases hx
    | some v =>
      exact ⟨v, by simp only [runinstr, exec, hcf]⟩

theorem C8_uninitialized_cell_witness :
    runinstr 1 (.cellfetch 3 : Instr) emptyDecls emptyCells emptyParams
        = (.err (.keyErrorCell 3), emptyCells, emptyDecls) ∧
    (∃ v : Value, runinstr 1 (.cellfetch (-1)) emptyDecls
        ((exec 2 (.instr (.block 0 [])) emptyDecls (freshStore "q") emptyParams).2.2.1)
        emptyParams
      = (.ok v,
          (exec 2 (.instr (.block 0 [])) emptyDecls (freshStore "q") emptyParams).2.2.1,
          emptyDecls)) :=
  ⟨C8_uninitialized_cell.1 0 3 emptyDecls emptyCells emptyParams rfl,
    C8_uninitialized_cell.2.2 2 "q" (.block 0 []) emptyDecls emptyParams 0 emptyDecls
      emptyParams⟩

/-- C9: evaluating a call whose arguments are expression-shaped leaves the
cell store of the caller exactly as it was, whatever the callee's body
does and however the call ends: the arguments are evaluated without
mutation and the body runs against the freshly allocated store only.  The
parameter binding is a read-only argument of the evaluator, so it is
unchanged by construction. -/
theorem C9_caller_isolation :
    ∀ (fuel : Nat) (name : String) (args : List Instr) (d : Decls) (c : Cells) (p : Params),
      isExprList args = true →
      (runinstr fuel (.call name args) d c p).2.1 = c := by
  intro fuel name args d c p h
  have hx := exec_expr_cells fuel (.instr (.call name args)) d c p
    (by simp only [exprTask, IsExprB]; exact h)
  simpa [runinstr] using hx

theorem C9_caller_isolation_witness :
    (runinstr 60 (.call "add" [.num 2, .num 3]) declsAdd
        (setCell emptyCells 0 (.int 9)) emptyParams).2.1
      = setCell emptyCells 0 (.int 9) :=
  C9_caller_isolation 60 "add" [.num 2, .num 3] declsAdd
    (setCell emptyCells 0 (.int 9)) emptyParams (by decide)

/-- C10: once both operands of the equality operator evaluate to values,
the operator always produces a Boolean (Python == does not raise), and the
int-subtype coercion makes Boolean true equal Integer 1 and Boolean false
equal Integer 0; a cell holding boolean true therefore satisfies the test
CELL(0) = 1. -/
theorem C10_equality_total :
    (∀ (fuel : Nat) (a b : Instr) (d : Decls) (c : Cells) (p : Params)
        (va vb : Value) (v1 v2 : List Value) (c1 c2 : Cells) (d1 d2 : Decls),
      exec fuel (.instr a) d c p = (.ok va, v1, c1, d1) →
      exec fuel (.instr b) d1 c1 p = (.ok vb, v2, c2, d2) →
      runinstr (fuel+1) (.eq a b) d c p = (.ok (.bool (pyEq va vb)), c2, d2)) ∧
    pyEq (.bool true) (.int 1) = true ∧
    pyEq (.bool false) (.int 0) = true ∧
    (runinstr 20 (.eq (.cellfetch 0) (.num 1)) emptyDecls
        (setCell emptyCells 0 (.bool true)) emptyParams).1
      = .ok (.bool true) := by
  refine ⟨?_, by decide, by decide, by decide⟩
  intro fuel a b d c p va vb v1 v2 c1 c2 d1 d2 h1 h2
  simp only [runinstr, exec, h1, h2]

theorem C10_equality_total_witness :
    runinstr 2 (.eq (.bool true) (.num 1) : Instr) emptyDecls emptyCells emptyParams
      = (.ok (.bool true), emptyCells, emptyDecls) := by
  have h := C10_equality_total.1 1 (.bool true) (.num 1) emptyDecls emptyCells emptyParams
      (.bool true) (.int 1) [] [] emptyCells emptyCells emptyDecls emptyDecls rfl rfl
  exact h
